import Mathlib

/-!
Shallow embedding of the sciconet training harness (`sciconet/model.py`):
the `Model` / `TrainState` / `LossHistory` control core.

Modelling conventions:
* numpy scalars are rationals (`ℚ`); `np.inf` is `⊤` of `WithTop ℚ`;
* a 1-d numpy array is a `Vec := List ℚ`; a value that may be either one
  array or a python list of per-target arrays is a `YVal`;
* the external collaborators (the data provider, the graph-execution
  engine's `sess.run`, numpy's floating-point `sqrt`) are an oracle `Oracle`
  supplied to `train`: each `sess.run` of the loss/outputs tensors returns
  whatever the oracle says, and a `none` observation models an exception
  raised inside the numeric layer;
* calls that python would fault on (e.g. `np.sum(None)`) return `none`;
* side effects that the claims talk about (session open/close, graph
  construction, minibatch draws, forward passes, history records) are
  recorded in an explicit event trace.
-/

/-- A 1-d numeric array. -/
abbrev Vec : Type := List ℚ

/-- A prediction/target value: either a single array (single-target
network) or a python list of per-target arrays (multi-target network). -/
inductive YVal : Type
  | single (a : Vec)
  | multi (as : List Vec)
  deriving DecidableEq, Repr

/-- Python indexing `y[i]` on a list of per-target arrays. Indexing out of
range (an `IndexError` in python) is abstracted to an empty array; the
claims only exercise in-range indices.  Indexing the single-array case
models ndarray row indexing abstractly and is unused by the claims. -/
def YVal.item : YVal → ℕ → YVal
  | .multi as, i => .single (as.getD i [])
  | .single a, _ => .single a

/-- A metric function from the metrics registry: applied to a pair of
(true, predicted) values, returns a scalar. -/
abbrev Metric : Type := YVal → YVal → ℚ

/-- Whether `net.targets` is a python list (and of what length) or a
single tensor: the `isinstance(self.net.targets, list)` dispatch. -/
inductive TargetsKind : Type
  | single
  | multi (k : ℕ)
  deriving DecidableEq, Repr

/-- Observable side effects of one run of the control core. -/
inductive Event : Type
  | sessionOpen
  | sessionClose
  | globalInit
  | buildLossGraph
  | buildTrainOp (scipy : Bool)
  | drawTrainBatch
  | drawTestData
  | runTrainOp
  | scipyMinimize
  | evaluate
  | forwardPass (training dropout : Bool) (dataId : ℕ)
  | record (step : ℤ)
  deriving DecidableEq, Repr

/-- What one evaluation's `sess.run` calls return: the training-set pass,
the deterministic test-set pass, and the stream of Monte-Carlo dropout
passes (the source's uncertainty loop is written for a single output:
`# TODO: support multi outputs`). -/
structure Obs : Type where
  trainPass : Vec × YVal
  testPass : Vec × YVal
  samples : ℕ → Vec × Vec

/-- The external collaborators of one `train` call: the data provider's
`train_next_batch` and `test`, the numeric engine's per-evaluation
results (`none` models an exception raised inside the numeric layer at
that evaluation), and floating-point square root (abstracted). -/
structure Oracle : Type where
  trainBatch : ℕ → Vec × YVal
  testData : Vec × YVal
  obs : ℕ → Option Obs
  sq : ℚ → ℚ

/-- Elementwise `np.mean(samples, axis=0)` over a list of equally-shaped
arrays. -/
def npMeanVec (samples : List Vec) : Vec :=
  match samples with
  | [] => []
  | v :: _ =>
      (List.range v.length).map fun j =>
        ((samples.map fun w => w.getD j 0).sum) / (samples.length : ℚ)

/-- Elementwise population variance of a list of equally-shaped arrays. -/
def npVarVec (samples : List Vec) : Vec :=
  match samples with
  | [] => []
  | v :: _ =>
      (List.range v.length).map fun j =>
        let μ := ((samples.map fun w => w.getD j 0).sum) / (samples.length : ℚ)
        ((samples.map fun w => (w.getD j 0 - μ) ^ 2).sum) / (samples.length : ℚ)

/-- Elementwise `np.std(samples, axis=0)` (population standard deviation):
the square root of the variance, with floating-point `sqrt` abstracted as
the supplied function. -/
def npStdVec (sq : ℚ → ℚ) (samples : List Vec) : Vec :=
  (npVarVec samples).map sq

/-- State of `TrainState.__init__`: counters at 0, no session, all data and result
fields `None`, best losses at `np.inf`. -/
structure TrainState : Type where
  epoch : ℕ := 0
  step : ℕ := 0
  hasSess : Bool := false
  X_train : Option Vec := none
  y_train : Option YVal := none
  X_test : Option Vec := none
  y_test : Option YVal := none
  y_pred_train : Option YVal := none
  loss_train : Option Vec := none
  loss_test : Option Vec := none
  y_pred_test : Option YVal := none
  y_std_test : Option YVal := none
  metrics_test : Option (List ℚ) := none
  best_loss_train : WithTop ℚ := ⊤
  best_loss_test : WithTop ℚ := ⊤
  best_y : Option YVal := none
  best_ystd : Option YVal := none
  best_metrics : Option (List ℚ) := none

/-- The freshly constructed state of `TrainState.__init__`. -/
def TrainState.init : TrainState := {}

/-- Source method `TrainState.update_tfsession`. -/
def TrainState.update_tfsession (s : TrainState) : TrainState :=
  { s with hasSess := true }

/-- Source method `TrainState.update_data_train`. -/
def TrainState.update_data_train (s : TrainState) (d : Vec × YVal) : TrainState :=
  { s with X_train := some d.1, y_train := some d.2 }

/-- Source method `TrainState.update_data_test`. -/
def TrainState.update_data_test (s : TrainState) (d : Vec × YVal) : TrainState :=
  { s with X_test := some d.1, y_test := some d.2 }

/-- The two counter increments `self.train_state.epoch += 1` and
`self.train_state.step += 1` of the stochastic loop body. -/
def TrainState.incr_counters (s : TrainState) : TrainState :=
  { s with epoch := s.epoch + 1, step := s.step + 1 }

/-- Source method `TrainState.update_best`: overwrite the `best_*` snapshot exactly when
the summed current train loss is strictly below the stored best.
`np.sum(self.loss_train)` with `loss_train` still `None` (i.e. update
before any evaluation) faults in python and is `none` here; likewise for
`loss_test`, which the source only sums inside the taken branch. -/
def TrainState.update_best (s : TrainState) : Option TrainState := do
  let lt ← s.loss_train
  if ((lt.sum : ℚ) : WithTop ℚ) < s.best_loss_train then
    let lte ← s.loss_test
    pure { s with
      best_loss_train := ((lt.sum : ℚ) : WithTop ℚ)
      best_loss_test := ((lte.sum : ℚ) : WithTop ℚ)
      best_y := s.y_pred_test
      best_ystd := s.y_std_test
      best_metrics := s.metrics_test }
  else
    pure s

/-- State of `LossHistory.__init__`: four empty sequences plus a display-only
loss-weights value (`1` in the source, modelled as "not set"). -/
structure LossHistory : Type where
  steps : List ℤ := []
  loss_train : List (Option Vec) := []
  loss_test : List (Option Vec) := []
  metrics_test : List (Option (List ℚ)) := []
  loss_weights : Option Vec := none

/-- A freshly constructed `LossHistory`. -/
def LossHistory.init : LossHistory := {}

/-- Source method `LossHistory.update_loss_weights`. -/
def LossHistory.update_loss_weights (h : LossHistory) (w : Vec) : LossHistory :=
  { h with loss_weights := some w }

/-- Source method `LossHistory.add`: append one entry to each of the four sequences. -/
def LossHistory.add (h : LossHistory) (step : ℤ) (lt ltst : Option Vec)
    (mt : Option (List ℚ)) : LossHistory :=
  { h with
    steps := h.steps ++ [step]
    loss_train := h.loss_train ++ [lt]
    loss_test := h.loss_test ++ [ltst]
    metrics_test := h.metrics_test ++ [mt] }

/-- State of `Model.__init__`: collaborator references plus the
configuration fields `compile` later sets, one `TrainState` and one
`LossHistory` constructed here, once per `Model`. -/
structure Model : Type where
  net_targets : TargetsKind
  optimizer : Option String := none
  batch_size : Option ℕ := none
  ntest : Option ℕ := none
  train_op : Option Bool := none
  metrics : List Metric := []
  train_state : TrainState := TrainState.init
  losshistory : LossHistory := LossHistory.init

/-- Source constructor `Model.__init__`. -/
def Model.init (tk : TargetsKind) : Model := { net_targets := tk }

/-- Source constant `Model.scipy_opts`: the quasi-Newton optimizer names. -/
def Model.scipy_opts : List String :=
  ["BFGS", "L-BFGS-B", "Nelder-Mead", "Powell", "CG", "Newton-CG"]

/-- The gradient-based optimizer names known to `Model.get_optimizer`. -/
def Model.grad_opts : List String :=
  ["sgd", "sgdnesterov", "adagrad", "adadelta", "rmsprop", "adam"]

/-- The decay-schedule kinds known to `Model.get_learningrate`. -/
def Model.decay_kinds : List String := ["inverse time", "cosine"]

/-- The `self.optimizer in Model.scipy_opts` dispatch (python's
`None in [...]` is `False`). -/
def Model.isScipy : Option String → Bool
  | some name => Model.scipy_opts.contains name
  | none => false

/-- Configuration errors raised during `compile` (python `KeyError` on
the optimizer / decay dictionaries, and an unknown metric name). -/
inductive CompileError : Type
  | unknownOptimizer (name : String)
  | unknownDecay (kind : String)
  | unknownMetric (name : String)
  deriving DecidableEq, Repr

/-- Source method `Model.get_optimizer`: dictionary lookup keyed by the gradient-based
optimizer name; an unknown name is a `KeyError`.  The optimizer object
itself is opaque here. -/
def Model.get_optimizer (name : String) : Except CompileError Unit :=
  if Model.grad_opts.contains name then .ok () else .error (.unknownOptimizer name)

/-- Source method `Model.get_learningrate`: with no decay spec returns the plain rate;
otherwise a dictionary lookup keyed by the decay kind (`KeyError` on an
unknown kind).  The resulting schedule tensor is opaque here. -/
def Model.get_learningrate (decay : Option (String × ℚ × ℚ)) :
    Except CompileError Unit :=
  match decay with
  | none => .ok ()
  | some (k, _, _) =>
      if Model.decay_kinds.contains k then .ok () else .error (.unknownDecay k)

/-- The metric comprehension at the end of `Model.test`: dispatch on
`isinstance(self.net.targets, list)`; in the multi-target case the outer
loop runs over the metric functions and the inner loop over the target
indices `range(len(self.net.targets))`, flattened into one list. -/
def Model.computeMetrics (tk : TargetsKind) (ms : List Metric)
    (y_test y_pred : YVal) : List ℚ :=
  match tk with
  | .multi k =>
      (ms.map fun m => (List.range k).map fun i => m (y_test.item i) (y_pred.item i)).flatten
  | .single => ms.map fun m => m y_test y_pred

/-- Source method `Model.test`: one forward pass over the current training batch
(training off, dropout off, data id 0) setting `loss_train` and
`y_pred_train`; then either one deterministic test pass (dropout off,
data id 1), or — with `uncertainty` — 1000 dropout-enabled test passes
(data id 1) averaged elementwise into `loss_test` / `y_pred_test` with
`y_std_test` their elementwise standard deviation; then the metric
comprehension over `(y_test, y_pred_test)`; finally `update_best`.
Returns the emitted events and the new state (`none` when python would
fault, e.g. `y_test` never set). -/
def Model.test (tk : TargetsKind) (ms : List Metric) (sq : ℚ → ℚ)
    (uncertainty : Bool) (o : Obs) (s : TrainState) :
    List Event × Option TrainState :=
  let s := { s with loss_train := some o.trainPass.1, y_pred_train := some o.trainPass.2 }
  let ev := [Event.evaluate, Event.forwardPass false false 0]
  let (ev2, s) :=
    if uncertainty then
      let losses := (List.range 1000).map fun j => (o.samples j).1
      let preds := (List.range 1000).map fun j => (o.samples j).2
      (List.replicate 1000 (Event.forwardPass false true 1),
       { s with
          loss_test := some (npMeanVec losses)
          y_pred_test := some (.single (npMeanVec preds))
          y_std_test := some (.single (npStdVec sq preds)) })
    else
      ([Event.forwardPass false false 1],
       { s with loss_test := some o.testPass.1, y_pred_test := some o.testPass.2 })
  match s.y_test, s.y_pred_test with
  | some yt, some yp =>
      let s := { s with metrics_test := some (Model.computeMetrics tk ms yt yp) }
      (ev ++ ev2, s.update_best)
  | _, _ => (ev ++ ev2, none)

/-- One iteration of the `for i in range(epochs)` body of
`Model.train_sgd` (the `CallbackList(None)` lifecycle hooks are no-ops
and elided): draw a minibatch, run the optimizer update, bump the
counters, and — when `i % validation_every == 0 or i + 1 == epochs` —
evaluate and append to the history.  `validation_every = 0` would be a
`ZeroDivisionError` in python; the claims assume it positive. -/
def Model.sgdStep (tk : TargetsKind) (ms : List Metric) (ext : Oracle)
    (epochs validation_every : ℕ) (uncertainty : Bool) (i : ℕ)
    (s : TrainState) (h : LossHistory) :
    List Event × Option (TrainState × LossHistory) :=
  let s := s.update_data_train (ext.trainBatch i)
  let ev := [Event.drawTrainBatch, Event.runTrainOp]
  let s := s.incr_counters
  if i % validation_every = 0 ∨ i + 1 = epochs then
    match ext.obs i with
    | none => (ev, none)
    | some o =>
        let tr := Model.test tk ms ext.sq uncertainty o s
        (ev ++ tr.1 ++ (if (tr.2).isSome then [Event.record (i : ℤ)] else []),
         (tr.2).map fun t => (t, h.add (i : ℤ) t.loss_train t.loss_test t.metrics_test))
  else (ev, some (s, h))

/-- The epoch loop of `Model.train_sgd`, as structural recursion on the
number of remaining iterations (`fuel = epochs - i`); a failing step
propagates the exception with the events emitted so far. -/
def Model.sgdIter (tk : TargetsKind) (ms : List Metric) (ext : Oracle)
    (epochs validation_every : ℕ) (uncertainty : Bool) :
    ℕ → ℕ → TrainState × LossHistory →
    List Event × Option (TrainState × LossHistory)
  | 0, _, st => ([], some st)
  | fuel + 1, i, st =>
      let (ev1, r1) := Model.sgdStep tk ms ext epochs validation_every uncertainty i st.1 st.2
      match r1 with
      | none => (ev1, none)
      | some st' =>
          let (ev2, r2) :=
            Model.sgdIter tk ms ext epochs validation_every uncertainty fuel (i + 1) st'
          (ev1 ++ ev2, r2)

/-- Source method `Model.train_sgd`: draw the held-out test split once, then run the
epoch loop.  `errstop` is accepted but never read: the early-stopping
check is commented out in the source. -/
def Model.train_sgd (tk : TargetsKind) (ms : List Metric) (ext : Oracle)
    (epochs validation_every : ℕ) (uncertainty : Bool) (errstop : Option ℚ)
    (s : TrainState) (h : LossHistory) :
    List Event × Option (TrainState × LossHistory) :=
  let s := s.update_data_test ext.testData
  let (ev, r) := Model.sgdIter tk ms ext epochs validation_every uncertainty epochs 0 (s, h)
  (Event.drawTestData :: ev, r)

/-- Source method `Model.train_scipy`: one fixed minibatch, one optimize-to-convergence
call, the test split, one evaluation, one history record at step `1`. -/
def Model.train_scipy (tk : TargetsKind) (ms : List Metric) (ext : Oracle)
    (uncertainty : Bool) (s : TrainState) (h : LossHistory) :
    List Event × Option (TrainState × LossHistory) :=
  let s := s.update_data_train (ext.trainBatch 0)
  let ev := [Event.drawTrainBatch, Event.scipyMinimize, Event.drawTestData]
  let s := s.update_data_test ext.testData
  match ext.obs 0 with
  | none => (ev, none)
  | some o =>
      let tr := Model.test tk ms ext.sq uncertainty o s
      (ev ++ tr.1 ++ (if (tr.2).isSome then [Event.record 1] else []),
       (tr.2).map fun t => (t, h.add 1 t.loss_train t.loss_test t.metrics_test))

/-- Source method `Model.train`: open the session, initialize variables, dispatch on
the optimizer's class, close the session, return
`(losshistory, train_state)`.  The close is the last statement of the
straight-line body — there is no `try/finally` in the source, so on a
failing body the exception propagates with the session still open. -/
def Model.train (ext : Oracle) (epochs validation_every : ℕ)
    (uncertainty : Bool) (errstop : Option ℚ) (m : Model) :
    List Event × Option (Model × LossHistory × TrainState) :=
  let s := m.train_state.update_tfsession
  let ev0 := [Event.sessionOpen, Event.globalInit]
  let (ev, r) :=
    if Model.isScipy m.optimizer then
      Model.train_scipy m.net_targets m.metrics ext uncertainty s m.losshistory
    else
      Model.train_sgd m.net_targets m.metrics ext epochs validation_every
        uncertainty errstop s m.losshistory
  match r with
  | none => (ev0 ++ ev, none)
  | some (s', h') =>
      (ev0 ++ ev ++ [Event.sessionClose],
       some ({ m with train_state := s', losshistory := h' }, h', s'))

/-- Metric-registry lookups for `[metrics_module.get(m) for m in metrics]`.
Modelled from the spec: the `metrics` registry module is not part of the
sources; per the spec's registry contract, a string name maps to a
function and an unknown name is an error. -/
def Model.lookupMetrics (reg : String → Option Metric) :
    List String → Except CompileError (List Metric)
  | [] => .ok []
  | n :: ns =>
      match reg n with
      | none => .error (.unknownMetric n)
      | some m =>
          match Model.lookupMetrics reg ns with
          | .error e => .error e
          | .ok ms => .ok (m :: ms)

/-- Source method `Model.compile`: store the configuration, build the loss graph (the
collaborator's loss tensors, optional regularizer, stacking, optional
loss-weight scaling recorded into the history, and the scalar sum), pick
the learning-rate schedule, then dispatch on the optimizer name — the
quasi-Newton names build the scipy interface, any other name goes through
the `get_optimizer` dictionary (a `KeyError` for an unknown name) — and
finally resolve the metric names. -/
def Model.compile (reg : String → Option Metric) (optimizer : String)
    (batch_size ntest : ℕ) (metricNames : List String)
    (decay : Option (String × ℚ × ℚ)) (loss_weights : Option Vec)
    (m : Model) : List Event × Except CompileError Model :=
  let m := { m with optimizer := some optimizer, batch_size := some batch_size,
                    ntest := some ntest }
  let ev := [Event.buildLossGraph]
  let m :=
    match loss_weights with
    | some w => { m with losshistory := m.losshistory.update_loss_weights w }
    | none => m
  match Model.get_learningrate decay with
  | .error e => (ev, .error e)
  | .ok _ =>
      if Model.scipy_opts.contains optimizer then
        let ev := ev ++ [Event.buildTrainOp true]
        match Model.lookupMetrics reg metricNames with
        | .error e => (ev, .error e)
        | .ok ms => (ev, .ok { m with train_op := some true, metrics := ms })
      else
        match Model.get_optimizer optimizer with
        | .error e => (ev, .error e)
        | .ok _ =>
            let ev := ev ++ [Event.buildTrainOp false]
            match Model.lookupMetrics reg metricNames with
            | .error e => (ev, .error e)
            | .ok ms => (ev, .ok { m with train_op := some false, metrics := ms })

/-- Modelled from the spec: the variant of `train` the spec's lifecycle
sentence describes — "constructed once per `Model.train` invocation
(fresh counters)" — i.e. `train` on a freshly constructed `TrainState`.
Used only to compare against the source's `Model.train`, which reuses the
state constructed in `Model.__init__`. -/
def Model.trainFreshState (ext : Oracle) (epochs validation_every : ℕ)
    (uncertainty : Bool) (errstop : Option ℚ) (m : Model) :
    List Event × Option (Model × LossHistory × TrainState) :=
  Model.train ext epochs validation_every uncertainty errstop
    { m with train_state := TrainState.init }

/-- The closed-form list of steps one `train_sgd` run appends to the
history: the epochs `i < E` with `i % V = 0` or `i + 1 = E`. -/
def recordedSteps (E V : ℕ) : List ℤ :=
  ((List.range E).filter fun i => decide (i % V = 0 ∨ i + 1 = E)).map Int.ofNat

/-- The values one evaluation writes into the state just before
`update_best` runs (the assignments of `Model.test`). -/
structure EvalObs : Type where
  lossTrain : Vec
  lossTest : Vec
  yPred : YVal
  yStd : Option YVal
  metrics : List ℚ

/-- The field assignments `Model.test` performs before calling
`update_best`. -/
def TrainState.observe (s : TrainState) (o : EvalObs) : TrainState :=
  { s with
    loss_train := some o.lossTrain
    loss_test := some o.lossTest
    y_pred_test := some o.yPred
    y_std_test := o.yStd
    metrics_test := some o.metrics }

/-- A run of `update_best` calls as they occur in a training run: each is
preceded by an evaluation's field assignments. -/
def updateBestRun (s : TrainState) (os : List EvalObs) : Option TrainState :=
  os.foldlM (fun st o => (st.observe o).update_best) s

/-- The mutating operations of `LossHistory` (`savetxt`/`plot` only
read). -/
inductive HOp : Type
  | add (step : ℤ) (lt ltst : Option Vec) (mt : Option (List ℚ))
  | update_loss_weights (w : Vec)

/-- Apply one `LossHistory` operation. -/
def HOp.apply (h : LossHistory) : HOp → LossHistory
  | .add s a b c => h.add s a b c
  | .update_loss_weights w => h.update_loss_weights w

/-- Run a sequence of `LossHistory` operations from a fresh history. -/
def runHOps (ops : List HOp) : LossHistory :=
  ops.foldl HOp.apply LossHistory.init

/-- A concrete evaluation observation for witnesses. -/
def obsC : Obs :=
  { trainPass := ([1], .single [1])
    testPass := ([2], .single [2])
    samples := fun _ => ([1], [1]) }

/-- A concrete, never-failing oracle for witnesses. -/
def extC : Oracle :=
  { trainBatch := fun _ => ([0], .single [0])
    testData := ([0], .single [0])
    obs := fun _ => some obsC
    sq := id }

/-- A concrete oracle whose very first evaluation raises (models an
exception inside the numeric layer at epoch 0). -/
def extFail : Oracle :=
  { trainBatch := fun _ => ([0], .single [0])
    testData := ([0], .single [0])
    obs := fun _ => none
    sq := id }

/-- A compiled model on the gradient-based path. -/
def mC : Model := { net_targets := .single, optimizer := some ("adam") }

/-- A compiled model on the quasi-Newton path. -/
def mS : Model := { net_targets := .single, optimizer := some ("L-BFGS-B") }

/-- A metric registry that resolves every name. -/
def regC : String → Option Metric := fun _ => some fun _ _ => 0

/-! ### LossHistory invariants (C9) -/

/-- The equal-length invariant of the four `LossHistory` sequences. -/
def LossHistory.balanced (h : LossHistory) : Prop :=
  h.loss_train.length = h.steps.length ∧
  h.loss_test.length = h.steps.length ∧
  h.metrics_test.length = h.steps.length

theorem hop_apply_balanced (h : LossHistory) (op : HOp) (hb : h.balanced) :
    (HOp.apply h op).balanced := by
  cases op with
  | add s a b c =>
      obtain ⟨h1, h2, h3⟩ := hb
      refine ⟨?_, ?_, ?_⟩ <;>
        simp [HOp.apply, LossHistory.add, h1, h2, h3]
  | update_loss_weights w =>
      exact hb

theorem hop_foldl_balanced (ops : List HOp) :
    ∀ h : LossHistory, h.balanced → (ops.foldl HOp.apply h).balanced := by
  induction ops with
  | nil => intro h hb; exact hb
  | cons op tl ih =>
      intro h hb
      exact ih _ (hop_apply_balanced h op hb)

theorem hop_apply_prefixes (h : LossHistory) (op : HOp) :
    h.steps <+: (HOp.apply h op).steps ∧
    h.loss_train <+: (HOp.apply h op).loss_train ∧
    h.loss_test <+: (HOp.apply h op).loss_test ∧
    h.metrics_test <+: (HOp.apply h op).metrics_test := by
  cases op with
  | add s a b c =>
      exact ⟨List.prefix_append _ _, List.prefix_append _ _,
             List.prefix_append _ _, List.prefix_append _ _⟩
  | update_loss_weights w =>
      exact ⟨List.prefix_rfl, List.prefix_rfl, List.prefix_rfl, List.prefix_rfl⟩

theorem hop_foldl_prefixes (ops : List HOp) :
    ∀ h : LossHistory,
      h.steps <+: (ops.foldl HOp.apply h).steps ∧
      h.loss_train <+: (ops.foldl HOp.apply h).loss_train ∧
      h.loss_test <+: (ops.foldl HOp.apply h).loss_test ∧
      h.metrics_test <+: (ops.foldl HOp.apply h).metrics_test := by
  induction ops with
  | nil =>
      exact fun h => ⟨List.prefix_rfl, List.prefix_rfl, List.prefix_rfl, List.prefix_rfl⟩
  | cons op tl ih =>
      intro h
      obtain ⟨p1, p2, p3, p4⟩ := hop_apply_prefixes h op
      obtain ⟨q1, q2, q3, q4⟩ := ih (HOp.apply h op)
      exact ⟨p1.trans q1, p2.trans q2, p3.trans q3, p4.trans q4⟩

/-- C9: after any sequence of `LossHistory` operations, the four internal
sequences `steps`, `loss_train`, `loss_test`, `metrics_test` have equal
length; each `add` call appends exactly one element to each of the four;
and no operation ever removes elements (every earlier value of each
sequence is a prefix of every later value). -/
theorem losshistory_add_invariant (ops tail : List HOp) (h : LossHistory)
    (step : ℤ) (a b : Option Vec) (c : Option (List ℚ)) :
    ((runHOps ops).loss_train.length = (runHOps ops).steps.length ∧
     (runHOps ops).loss_test.length = (runHOps ops).steps.length ∧
     (runHOps ops).metrics_test.length = (runHOps ops).steps.length) ∧
    ((h.add step a b c).steps = h.steps ++ [step] ∧
     (h.add step a b c).loss_train = h.loss_train ++ [a] ∧
     (h.add step a b c).loss_test = h.loss_test ++ [b] ∧
     (h.add step a b c).metrics_test = h.metrics_test ++ [c]) ∧
    ((runHOps ops).steps <+: (runHOps (ops ++ tail)).steps ∧
     (runHOps ops).loss_train <+: (runHOps (ops ++ tail)).loss_train ∧
     (runHOps ops).loss_test <+: (runHOps (ops ++ tail)).loss_test ∧
     (runHOps ops).metrics_test <+: (runHOps (ops ++ tail)).metrics_test) := by
  refine ⟨hop_foldl_balanced ops LossHistory.init ⟨rfl, rfl, rfl⟩, ⟨rfl, rfl, rfl, rfl⟩, ?_⟩
  have : runHOps (ops ++ tail) = tail.foldl HOp.apply (runHOps ops) := by
    simp [runHOps, List.foldl_append]
  rw [this]
  exact hop_foldl_prefixes tail (runHOps ops)

/-! ### update_best (C2) -/

theorem update_best_realized (s : TrainState) (v w : Vec)
    (hv : s.loss_train = some v) (hw : s.loss_test = some w) :
    ∃ t, s.update_best = some t ∧
      t.best_loss_train = min s.best_loss_train ((v.sum : ℚ) : WithTop ℚ) := by
  unfold TrainState.update_best
  rw [hv]
  simp only [Option.bind_eq_bind, Option.some_bind]
  by_cases hc : ((v.sum : ℚ) : WithTop ℚ) < s.best_loss_train
  · rw [if_pos hc, hw]
    exact ⟨_, rfl, (min_eq_right hc.le).symm⟩
  · rw [if_neg hc]
    exact ⟨s, rfl, (min_eq_left (not_lt.mp hc)).symm⟩

theorem update_best_mono (s t : TrainState) (h : s.update_best = some t) :
    t.best_loss_train ≤ s.best_loss_train := by
  unfold TrainState.update_best at h
  cases hv : s.loss_train with
  | none => rw [hv] at h; exact absurd h (by simp)
  | some v =>
      rw [hv] at h
      simp only [Option.bind_eq_bind, Option.some_bind] at h
      by_cases hc : ((v.sum : ℚ) : WithTop ℚ) < s.best_loss_train
      · rw [if_pos hc] at h
        cases hw : s.loss_test with
        | none => rw [hw] at h; exact absurd h (by simp)
        | some w =>
            rw [hw] at h
            cases h
            exact hc.le
      · rw [if_neg hc] at h
        cases h
        exact le_refl _

theorem update_best_no_overwrite (s : TrainState) (v : Vec)
    (hv : s.loss_train = some v)
    (hnot : ¬ ((v.sum : ℚ) : WithTop ℚ) < s.best_loss_train) :
    s.update_best = some s := by
  unfold TrainState.update_best
  rw [hv]
  simp only [Option.bind_eq_bind, Option.some_bind]
  rw [if_neg hnot]
  rfl

theorem updateBestRun_best (os : List EvalObs) :
    ∀ s : TrainState, ∃ t, updateBestRun s os = some t ∧
      t.best_loss_train =
        (os.map fun o => ((o.lossTrain.sum : ℚ) : WithTop ℚ)).foldl min s.best_loss_train := by
  induction os with
  | nil => exact fun s => ⟨s, rfl, rfl⟩
  | cons o tl ih =>
      intro s
      obtain ⟨t, ht, hbest⟩ :=
        update_best_realized (s.observe o) o.lossTrain o.lossTest rfl rfl
      obtain ⟨t', ht', hbest'⟩ := ih t
      refine ⟨t', ?_, ?_⟩
      · simp only [updateBestRun, List.foldlM_cons, ht, Option.bind_eq_bind,
          Option.some_bind]
        exact ht'
      · rw [hbest', hbest]
        simp [TrainState.observe]

/-- C2: across every sequence of `update_best` calls in a run (each
preceded by an evaluation's field assignments), `best_loss_train` equals
the minimum summed train loss observed so far (starting from `np.inf`);
a single `update_best` never increases it; and when the current summed
train loss is not strictly below the stored best, the call leaves the
entire state — in particular every `best_*` field — unchanged. -/
theorem best_loss_min_invariant (os : List EvalObs) :
    ((updateBestRun TrainState.init os).map fun t => t.best_loss_train) =
      some ((os.map fun o => ((o.lossTrain.sum : ℚ) : WithTop ℚ)).foldl min ⊤) ∧
    (∀ s t : TrainState, s.update_best = some t →
      t.best_loss_train ≤ s.best_loss_train) ∧
    (∀ (s : TrainState) (v : Vec), s.loss_train = some v →
      ¬ ((v.sum : ℚ) : WithTop ℚ) < s.best_loss_train →
      s.update_best = some s) := by
  refine ⟨?_, update_best_mono, update_best_no_overwrite⟩
  obtain ⟨t, ht, hbest⟩ := updateBestRun_best os TrainState.init
  rw [ht]
  exact congrArg some hbest

/-- Closed instance of the C2 invariant: two observations with summed
train losses `3` and `2`; the final best is their minimum. -/
theorem best_loss_min_invariant_witness :
    ((updateBestRun TrainState.init
        [⟨[3], [4], .single [], none, []⟩, ⟨[1, 1], [5], .single [], none, []⟩]).map
          fun t => t.best_loss_train) =
      some ((([⟨[3], [4], .single [], none, []⟩, ⟨[1, 1], [5], .single [], none, []⟩] :
          List EvalObs).map fun o => ((o.lossTrain.sum : ℚ) : WithTop ℚ)).foldl min ⊤) :=
  (best_loss_min_invariant _).1

/-! ### Model.test (C7, C8) -/


set_option maxRecDepth 4000

theorem update_best_fields (s : TrainState) (v w : Vec)
    (hv : s.loss_train = some v) (hw : s.loss_test = some w) :
    ∃ t, s.update_best = some t ∧ t.epoch = s.epoch ∧ t.step = s.step ∧
      t.hasSess = s.hasSess ∧ t.y_test = s.y_test ∧ t.loss_train = s.loss_train ∧
      t.loss_test = s.loss_test ∧ t.y_pred_test = s.y_pred_test ∧
      t.y_std_test = s.y_std_test ∧ t.metrics_test = s.metrics_test := by
  unfold TrainState.update_best
  rw [hv]
  simp only [Option.bind_eq_bind, Option.some_bind]
  by_cases hc : ((v.sum : ℚ) : WithTop ℚ) < s.best_loss_train
  · rw [if_pos hc, hw]
    exact ⟨_, rfl, rfl, rfl, rfl, rfl, rfl, rfl, rfl, rfl, rfl⟩
  · rw [if_neg hc]
    exact ⟨s, rfl, rfl, rfl, rfl, rfl, hv, rfl, rfl, rfl, rfl⟩

theorem test_events (tk : TargetsKind) (ms : List Metric) (sq : ℚ → ℚ)
    (u : Bool) (o : Obs) (s : TrainState) :
    (Model.test tk ms sq u o s).1 =
      [Event.evaluate, Event.forwardPass false false 0] ++
        (if u then List.replicate 1000 (Event.forwardPass false true 1)
         else [Event.forwardPass false false 1]) := by
  rcases hs : s.y_test with _ | yt <;> cases u <;>
    simp only [Model.test, hs, if_true, if_false, Bool.false_eq_true]

theorem test_spec (tk : TargetsKind) (ms : List Metric) (sq : ℚ → ℚ)
    (u : Bool) (o : Obs) (s : TrainState) (yt : YVal) (hyt : s.y_test = some yt) :
    ∃ t, (Model.test tk ms sq u o s).2 = some t ∧
      t.epoch = s.epoch ∧ t.step = s.step ∧ t.hasSess = s.hasSess ∧
      t.y_test = some yt ∧
      t.loss_train = some o.trainPass.1 ∧
      t.loss_test = some (if u then
          npMeanVec ((List.range 1000).map fun j => (o.samples j).1)
        else o.testPass.1) ∧
      t.y_pred_test = some (if u then
          YVal.single (npMeanVec ((List.range 1000).map fun j => (o.samples j).2))
        else o.testPass.2) ∧
      t.y_std_test = (if u then
          some (YVal.single (npStdVec sq ((List.range 1000).map fun j => (o.samples j).2)))
        else s.y_std_test) ∧
      t.metrics_test = some (Model.computeMetrics tk ms yt (if u then
          YVal.single (npMeanVec ((List.range 1000).map fun j => (o.samples j).2))
        else o.testPass.2)) := by
  cases u <;>
    simp only [Model.test, hyt, if_true, if_false, Bool.false_eq_true]
  · obtain ⟨t, ht, h1, h2, h3, h4, h5, h6, h7, h8, h9⟩ :=
      update_best_fields
        { s with
            y_test := some yt
            loss_train := some o.trainPass.1
            y_pred_train := some o.trainPass.2
            loss_test := some o.testPass.1
            y_pred_test := some o.testPass.2
            metrics_test := some (Model.computeMetrics tk ms yt o.testPass.2) }
        o.trainPass.1 o.testPass.1 rfl rfl
    exact ⟨t, ht, h1, h2, h3, h4, h5, h6, h7, h8, h9⟩
  · obtain ⟨t, ht, h1, h2, h3, h4, h5, h6, h7, h8, h9⟩ :=
      update_best_fields
        { s with
            y_test := some yt
            loss_train := some o.trainPass.1
            y_pred_train := some o.trainPass.2
            loss_test := some (npMeanVec ((List.range 1000).map fun j => (o.samples j).1))
            y_pred_test := some (YVal.single (npMeanVec ((List.range 1000).map fun j => (o.samples j).2)))
            y_std_test := some (YVal.single (npStdVec sq ((List.range 1000).map fun j => (o.samples j).2)))
            metrics_test := some (Model.computeMetrics tk ms yt
              (YVal.single (npMeanVec ((List.range 1000).map fun j => (o.samples j).2)))) }
        o.trainPass.1 (npMeanVec ((List.range 1000).map fun j => (o.samples j).1)) rfl rfl
    exact ⟨t, ht, h1, h2, h3, h4, h5, h6, h7, h8, h9⟩

theorem computeMetrics_multi (ms : List Metric) (k : ℕ) (yt yp : YVal) :
    Model.computeMetrics (.multi k) ms yt yp =
      (ms.map fun m => (List.range k).map fun i => m (yt.item i) (yp.item i)).flatten := rfl

theorem flatten_chunks_getElem (k : ℕ) :
    ∀ (chunks : List (List ℚ)), (∀ c ∈ chunks, c.length = k) →
      ∀ a b : ℕ, b < k →
        (chunks.flatten)[a * k + b]? = (chunks[a]?).bind (fun v => v[b]?) := by
  intro chunks
  induction chunks with
  | nil => intro _ a b _; simp
  | cons c tl ih =>
      intro hlen a b hb
      have hc : c.length = k := hlen c (List.mem_cons_self c tl)
      cases a with
      | zero =>
          simp only [Nat.zero_mul, Nat.zero_add, List.flatten_cons]
          rw [List.getElem?_append_left (by rw [hc]; exact hb)]
          simp
      | succ a =>
          simp only [List.flatten_cons]
          have hge : c.length ≤ (a + 1) * k + b := by
            rw [hc, Nat.succ_mul]
            omega
          rw [List.getElem?_append_right hge]
          have harith : (a + 1) * k + b - c.length = a * k + b := by
            rw [hc, Nat.succ_mul]
            omega
          rw [harith, ih (fun d hd => hlen d (List.mem_cons_of_mem c hd)) a b hb]
          simp

theorem computeMetrics_multi_length (ms : List Metric) (k : ℕ) (yt yp : YVal) :
    (Model.computeMetrics (.multi k) ms yt yp).length = ms.length * k := by
  unfold Model.computeMetrics
  induction ms with
  | nil => simp
  | cons m tl ih =>
      simp only [List.map_cons, List.flatten_cons, List.length_append, ih,
        List.length_map, List.length_range, Nat.succ_mul, List.length_cons]
      ring

/-- C7: for a multi-target network with `k` targets and the configured
metric list `ms`, the metric comprehension of `Model.test` yields a flat
list of `ms.length * k` entries ordered with the outer loop over metrics
and the inner loop over targets (the entry at `a * k + b` is metric `a`
applied to target `b`); for a single-target network it is one entry per
metric applied to the whole `(y_test, y_pred_test)` pair; and the
deterministic evaluation stores exactly this list in `metrics_test`. -/
theorem metrics_order (ms : List Metric) (k : ℕ) (yt yp : YVal)
    (a b : ℕ) (hb : b < k) (tk : TargetsKind) (sq : ℚ → ℚ) (o : Obs)
    (s : TrainState) (yt' : YVal) (hyt : s.y_test = some yt') :
    (Model.computeMetrics (.multi k) ms yt yp).length = ms.length * k ∧
    (Model.computeMetrics (.multi k) ms yt yp)[a * k + b]? =
      (ms[a]?).map (fun m => m (yt.item b) (yp.item b)) ∧
    Model.computeMetrics .single ms yt yp = ms.map (fun m => m yt yp) ∧
    ∃ t, (Model.test tk ms sq false o s).2 = some t ∧
      t.metrics_test = some (Model.computeMetrics tk ms yt' o.testPass.2) := by
  refine ⟨computeMetrics_multi_length ms k yt yp, ?_, rfl, ?_⟩
  · rw [computeMetrics_multi]
    rw [flatten_chunks_getElem k _ (by
      intro c hc
      obtain ⟨m, _, hm⟩ := List.mem_map.mp hc
      rw [← hm]
      simp) a b hb]
    rw [List.getElem?_map]
    cases hma : ms[a]? with
    | none => simp
    | some m =>
        simp only [Option.map_some', Option.some_bind]
        rw [List.getElem?_map, List.getElem?_range hb]
        rfl
  · obtain ⟨t, ht, _, _, _, _, _, _, _, _, h9⟩ :=
      test_spec tk ms sq false o s yt' hyt
    exact ⟨t, ht, by simpa using h9⟩

/-- Closed instance of C7: two metrics and three targets give six entries
in metric-major order. -/
theorem metrics_order_witness :
    (Model.computeMetrics (.multi 3)
        [fun _ _ => 100, fun _ _ => 200]
        (.multi [[1], [2], [3]]) (.multi [[4], [5], [6]])).length = 2 * 3 ∧
    (Model.computeMetrics (.multi 3)
        [fun _ _ => 100, fun _ _ => 200]
        (.multi [[1], [2], [3]]) (.multi [[4], [5], [6]]))[1 * 3 + 2]? =
      (([fun _ _ => 100, fun _ _ => 200] : List Metric)[1]?).map
        (fun m => m ((YVal.multi [[1], [2], [3]]).item 2)
                    ((YVal.multi [[4], [5], [6]]).item 2)) := by
  have h := metrics_order [fun _ _ => 100, fun _ _ => 200] 3
    (.multi [[1], [2], [3]]) (.multi [[4], [5], [6]]) 1 2 (by decide)
    .single id ⟨([0], .single [0]), ([0], .single [0]), fun _ => ([0], [0])⟩
    { TrainState.init with y_test := some (.single [0]) } (.single [0]) rfl
  exact ⟨h.1, h.2.1⟩

/-- C8: with `uncertainty=True`, one evaluation runs exactly 1000 forward
passes over the test set with dropout enabled and data-id selector 1 (a
fixed count, not configurable by any argument of `test`); `loss_test` and
`y_pred_test` are the elementwise mean of the 1000 collected samples and
`y_std_test` their elementwise standard deviation. -/
theorem uncertainty_thousand_passes (tk : TargetsKind) (ms : List Metric)
    (sq : ℚ → ℚ) (o : Obs) (s : TrainState) (yt : YVal)
    (hyt : s.y_test = some yt) :
    (Model.test tk ms sq true o s).1.count (Event.forwardPass false true 1) = 1000 ∧
    (Model.test tk ms sq true o s).1 =
      [Event.evaluate, Event.forwardPass false false 0] ++
        List.replicate 1000 (Event.forwardPass false true 1) ∧
    ∃ t, (Model.test tk ms sq true o s).2 = some t ∧
      t.loss_test = some (npMeanVec ((List.range 1000).map fun j => (o.samples j).1)) ∧
      t.y_pred_test =
        some (.single (npMeanVec ((List.range 1000).map fun j => (o.samples j).2))) ∧
      t.y_std_test =
        some (.single (npStdVec sq ((List.range 1000).map fun j => (o.samples j).2))) := by
  have hev := test_events tk ms sq true o s
  rw [if_pos rfl] at hev
  refine ⟨?_, hev, ?_⟩
  · rw [hev]
    simp only [List.count_append, List.count_cons, List.count_nil,
      List.count_replicate]
    decide
  · obtain ⟨t, ht, _, _, _, _, _, h6, h7, h8, _⟩ :=
      test_spec tk ms sq true o s yt hyt
    rw [if_pos rfl] at h6 h7 h8
    exact ⟨t, ht, h6, h7, h8⟩

/-- Closed instance of C8 at a concrete state and observation. -/
theorem uncertainty_thousand_passes_witness :
    (Model.test .single [] id true
        ⟨([1], .single [1]), ([2], .single [2]), fun _ => ([1], [1])⟩
        { TrainState.init with y_test := some (.single [0]) }).1.count
      (Event.forwardPass false true 1) = 1000 :=
  (uncertainty_thousand_passes .single [] id
    ⟨([1], .single [1]), ([2], .single [2]), fun _ => ([1], [1])⟩
    { TrainState.init with y_test := some (.single [0]) } (.single [0]) rfl).1

/-- C10: `errstop` is accepted but inert — two `train` calls that differ
only in `errstop` produce identical traces, histories and states (the
early-stopping check is commented out in the source). -/
theorem errstop_inert (ext : Oracle) (E V : ℕ) (u : Bool)
    (e₁ e₂ : Option ℚ) (m : Model) :
    Model.train ext E V u e₁ m = Model.train ext E V u e₂ m := rfl

/-- C3 counterexample: `compile` with the unknown optimizer name
"made-up" does raise a configuration error (the `get_optimizer`
dictionary lookup fails), but the loss graph has already been
constructed by then — `data.losses`, the loss stacking and the scalar
objective all run before the optimizer dispatch — so the error is not
raised "before any loss-graph construction proceeds". -/
theorem compile_unknown_after_lossgraph :
    (Model.compile regC ("made-up") 16 100 [] none none (Model.init .single)).2 =
      .error (.unknownOptimizer ("made-up")) ∧
    Event.buildLossGraph ∈
      (Model.compile regC ("made-up") 16 100 [] none none (Model.init .single)).1 :=
  ⟨rfl, by decide⟩

/-- C3 amended: an optimizer name that is neither quasi-Newton nor
gradient-based makes `compile` fail with a configuration error; the
failure happens after the loss graph is built but before any training op
is constructed, and no session is constructed during `compile` at all. -/
theorem compile_unknown_config_error (reg : String → Option Metric)
    (optimizer : String) (bs nt : ℕ) (names : List String)
    (decay : Option (String × ℚ × ℚ)) (lw : Option Vec) (m : Model)
    (h1 : optimizer ∉ Model.scipy_opts) (h2 : optimizer ∉ Model.grad_opts)
    (hd : Model.get_learningrate decay = .ok ()) :
    (Model.compile reg optimizer bs nt names decay lw m).2 =
      .error (.unknownOptimizer optimizer) ∧
    Event.buildLossGraph ∈ (Model.compile reg optimizer bs nt names decay lw m).1 ∧
    (∀ b : Bool,
      Event.buildTrainOp b ∉ (Model.compile reg optimizer bs nt names decay lw m).1) ∧
    Event.sessionOpen ∉ (Model.compile reg optimizer bs nt names decay lw m).1 := by
  have hc1 : Model.scipy_opts.contains optimizer = false := by simpa using h1
  have hc2 : Model.grad_opts.contains optimizer = false := by simpa using h2
  have hopt : Model.get_optimizer optimizer = .error (.unknownOptimizer optimizer) := by
    unfold Model.get_optimizer
    rw [hc2]
    rfl
  unfold Model.compile
  rw [hd, hc1, hopt]
  refine ⟨rfl, by simp, fun b => by simp, by simp⟩

/-- Closed instance of the amended C3 at the name "made-up". -/
theorem compile_unknown_config_error_witness :
    (Model.compile regC ("made-up") 16 100 [] none none (Model.init .single)).2 =
      .error (.unknownOptimizer ("made-up")) ∧
    Event.buildLossGraph ∈
      (Model.compile regC ("made-up") 16 100 [] none none (Model.init .single)).1 ∧
    (∀ b : Bool, Event.buildTrainOp b ∉
      (Model.compile regC ("made-up") 16 100 [] none none (Model.init .single)).1) ∧
    Event.sessionOpen ∉
      (Model.compile regC ("made-up") 16 100 [] none none (Model.init .single)).1 :=
  compile_unknown_config_error regC "made-up" 16 100 [] none none (Model.init .single)
    (by decide) (by decide) rfl

theorem test_no_close (tk : TargetsKind) (ms : List Metric) (sq : ℚ → ℚ)
    (u : Bool) (o : Obs) (s : TrainState) :
    Event.sessionClose ∉ (Model.test tk ms sq u o s).1 := by
  cases u
  · rw [test_events, if_neg (by simp)]
    intro hmem
    rcases List.mem_append.mp hmem with hmem | hmem <;> simp at hmem
  · rw [test_events, if_pos rfl]
    intro hmem
    rcases List.mem_append.mp hmem with hmem | hmem
    · simp at hmem
    · rcases List.mem_replicate.mp hmem with ⟨-, hcontra⟩
      exact absurd hcontra (by decide)

theorem sgdStep_spec (tk : TargetsKind) (ms : List Metric) (ext : Oracle)
    (E V : ℕ) (u : Bool) (i : ℕ) (s : TrainState) (h : LossHistory) (yt : YVal)
    (hyt : s.y_test = some yt) (o : Obs) (ho : ext.obs i = some o) :
    ∃ ev s' h', Model.sgdStep tk ms ext E V u i s h = (ev, some (s', h')) ∧
      h'.steps = h.steps ++ (if i % V = 0 ∨ i + 1 = E then [(i : ℤ)] else []) ∧
      s'.epoch = s.epoch + 1 ∧ s'.step = s.step + 1 ∧
      s'.y_test = some yt ∧ s'.hasSess = s.hasSess ∧
      Event.sessionClose ∉ ev := by
  by_cases hc : i % V = 0 ∨ i + 1 = E
  · have hy2 : ((s.update_data_train (ext.trainBatch i)).incr_counters).y_test = some yt := by
      simpa [TrainState.update_data_train, TrainState.incr_counters] using hyt
    obtain ⟨t, ht2, hep, hst, hsess, hytt, _, _, _, _⟩ :=
      test_spec tk ms ext.sq u o ((s.update_data_train (ext.trainBatch i)).incr_counters) yt hy2
    have hnc := test_no_close tk ms ext.sq u o
      ((s.update_data_train (ext.trainBatch i)).incr_counters)
    refine ⟨[Event.drawTrainBatch, Event.runTrainOp] ++
        (Model.test tk ms ext.sq u o ((s.update_data_train (ext.trainBatch i)).incr_counters)).1 ++
        [Event.record (i : ℤ)],
      t, h.add (i : ℤ) t.loss_train t.loss_test t.metrics_test, ?_, ?_, ?_, ?_, ?_, ?_, ?_⟩
    · simp only [Model.sgdStep]
      rw [ho]
      rw [if_pos hc]
      dsimp only
      rw [ht2]
      simp
    · rw [if_pos hc]
      rfl
    · simpa [TrainState.update_data_train, TrainState.incr_counters] using hep
    · simpa [TrainState.update_data_train, TrainState.incr_counters] using hst
    · exact hytt
    · simpa [TrainState.update_data_train, TrainState.incr_counters] using hsess
    · intro hmem
      rcases List.mem_append.mp hmem with hmem | hmem
      · rcases List.mem_append.mp hmem with hmem | hmem
        · simp at hmem
        · exact hnc hmem
      · simp at hmem
  · refine ⟨[Event.drawTrainBatch, Event.runTrainOp],
      (s.update_data_train (ext.trainBatch i)).incr_counters, h, ?_, ?_, ?_, ?_, ?_, ?_, ?_⟩
    · simp only [Model.sgdStep]
      rw [ho]
      rw [if_neg hc]
    · rw [if_neg hc]
      simp
    · simp [TrainState.update_data_train, TrainState.incr_counters]
    · simp [TrainState.update_data_train, TrainState.incr_counters]
    · simpa [TrainState.update_data_train, TrainState.incr_counters] using hyt
    · simp [TrainState.update_data_train, TrainState.incr_counters]
    · simp

theorem test_counts (tk : TargetsKind) (ms : List Metric) (sq : ℚ → ℚ)
    (u : Bool) (o : Obs) (s : TrainState) :
    (Model.test tk ms sq u o s).1.count Event.drawTrainBatch = 0 ∧
    (Model.test tk ms sq u o s).1.count Event.evaluate = 1 ∧
    (Model.test tk ms sq u o s).1.count (Event.record 1) = 0 := by
  cases u
  · have hev := test_events tk ms sq false o s
    rw [if_neg (by simp)] at hev
    refine ⟨?_, ?_, ?_⟩ <;> rw [hev] <;> decide
  · have hev := test_events tk ms sq true o s
    rw [if_pos rfl] at hev
    refine ⟨?_, ?_, ?_⟩ <;> rw [hev] <;>
      simp only [List.count_append, List.count_cons, List.count_nil,
        List.count_replicate] <;> decide

theorem sgdStep_no_close (tk : TargetsKind) (ms : List Metric) (ext : Oracle)
    (E V : ℕ) (u : Bool) (i : ℕ) (s : TrainState) (h : LossHistory) :
    Event.sessionClose ∉ (Model.sgdStep tk ms ext E V u i s h).1 := by
  simp only [Model.sgdStep]
  by_cases hc : i % V = 0 ∨ i + 1 = E
  · rw [if_pos hc]
    rcases ho : ext.obs i with _ | o
    · simp
    · dsimp only
      intro hmem
      rcases List.mem_append.mp hmem with hmem | hmem
      · rcases List.mem_append.mp hmem with hmem | hmem
        · simp at hmem
        · exact test_no_close tk ms ext.sq u o _ hmem
      · split at hmem <;> simp at hmem
  · rw [if_neg hc]
    simp

theorem sgdIter_spec (tk : TargetsKind) (ms : List Metric) (ext : Oracle)
    (E V : ℕ) (u : Bool) (hobs : ∀ i, (ext.obs i).isSome) :
    ∀ (fuel i : ℕ) (s : TrainState) (h : LossHistory) (yt : YVal),
      s.y_test = some yt →
      ∃ ev s' h',
        Model.sgdIter tk ms ext E V u fuel i (s, h) = (ev, some (s', h')) ∧
        h'.steps = h.steps ++
          (((List.range' i fuel).filter fun j => decide (j % V = 0 ∨ j + 1 = E)).map Int.ofNat) ∧
        s'.epoch = s.epoch + fuel ∧
        s'.step = s.step + fuel ∧
        s'.y_test = some yt ∧
        s'.hasSess = s.hasSess := by
  intro fuel
  induction fuel with
  | zero =>
      intro i s h yt hyt
      exact ⟨[], s, h, rfl, by simp, rfl, rfl, hyt, rfl⟩
  | succ fuel ih =>
      intro i s h yt hyt
      obtain ⟨o, ho⟩ := Option.isSome_iff_exists.mp (hobs i)
      obtain ⟨ev1, s1, h1, hstep, hsteps1, hep1, hst1, hyt1, hsess1, _⟩ :=
        sgdStep_spec tk ms ext E V u i s h yt hyt o ho
      obtain ⟨ev2, s2, h2, hiter, hsteps2, hep2, hst2, hyt2, hsess2⟩ :=
        ih (i + 1) s1 h1 yt hyt1
      refine ⟨ev1 ++ ev2, s2, h2, ?_, ?_, ?_, ?_, hyt2, ?_⟩
      · simp only [Model.sgdIter, hstep, hiter]
      · rw [hsteps2, hsteps1, List.range'_succ, List.filter_cons]
        by_cases hc : i % V = 0 ∨ i + 1 = E
        · simp [hc]
        · simp [hc]
      · rw [hep2, hep1]; omega
      · rw [hst2, hst1]; omega
      · rw [hsess2, hsess1]

theorem sgdIter_no_close (tk : TargetsKind) (ms : List Metric) (ext : Oracle)
    (E V : ℕ) (u : Bool) :
    ∀ (fuel i : ℕ) (st : TrainState × LossHistory),
      Event.sessionClose ∉ (Model.sgdIter tk ms ext E V u fuel i st).1 := by
  intro fuel
  induction fuel with
  | zero => intro i st; simp [Model.sgdIter]
  | succ fuel ih =>
      intro i st
      simp only [Model.sgdIter]
      rcases hstep : Model.sgdStep tk ms ext E V u i st.1 st.2 with ⟨ev1, r1⟩
      have hnc1 := sgdStep_no_close tk ms ext E V u i st.1 st.2
      rw [hstep] at hnc1
      cases r1 with
      | none => simpa using hnc1
      | some st' =>
          dsimp only
          have hnc2 := ih (i + 1) st'
          intro hmem
          rcases List.mem_append.mp hmem with hmem | hmem
          · exact hnc1 (by simpa using hmem)
          · exact hnc2 hmem

theorem train_sgd_spec (tk : TargetsKind) (ms : List Metric) (ext : Oracle)
    (E V : ℕ) (u : Bool) (errstop : Option ℚ) (s : TrainState) (h : LossHistory)
    (hobs : ∀ i, (ext.obs i).isSome) :
    ∃ ev s' h', Model.train_sgd tk ms ext E V u errstop s h = (ev, some (s', h')) ∧
      h'.steps = h.steps ++
        (((List.range E).filter fun j => decide (j % V = 0 ∨ j + 1 = E)).map Int.ofNat) ∧
      s'.epoch = s.epoch + E ∧ s'.step = s.step + E ∧
      s'.hasSess = s.hasSess ∧
      Event.sessionClose ∉ ev := by
  obtain ⟨ev, s', h', hiter, hsteps, hep, hst, _, hsess⟩ :=
    sgdIter_spec tk ms ext E V u hobs E 0 (s.update_data_test ext.testData) h
      ext.testData.2 (by simp [TrainState.update_data_test])
  have hnc := sgdIter_no_close tk ms ext E V u E 0 (s.update_data_test ext.testData, h)
  rw [hiter] at hnc
  refine ⟨Event.drawTestData :: ev, s', h', ?_, ?_, ?_, ?_, ?_, ?_⟩
  · simp only [Model.train_sgd, hiter]
  · rw [hsteps, List.range_eq_range']
  · simpa [TrainState.update_data_test] using hep
  · simpa [TrainState.update_data_test] using hst
  · simpa [TrainState.update_data_test] using hsess
  · intro hmem
    rcases List.mem_cons.mp hmem with he | hmem
    · exact absurd he (by decide)
    · exact hnc hmem

theorem train_sgd_no_close (tk : TargetsKind) (ms : List Metric) (ext : Oracle)
    (E V : ℕ) (u : Bool) (errstop : Option ℚ) (s : TrainState) (h : LossHistory) :
    Event.sessionClose ∉ (Model.train_sgd tk ms ext E V u errstop s h).1 := by
  simp only [Model.train_sgd]
  rcases hiter : Model.sgdIter tk ms ext E V u E 0 (s.update_data_test ext.testData, h)
    with ⟨ev, r⟩
  have hnc := sgdIter_no_close tk ms ext E V u E 0 (s.update_data_test ext.testData, h)
  rw [hiter] at hnc
  dsimp only
  intro hmem
  rcases List.mem_cons.mp hmem with he | hmem
  · exact absurd he (by decide)
  · exact hnc hmem

theorem train_scipy_spec (tk : TargetsKind) (ms : List Metric) (ext : Oracle)
    (u : Bool) (s : TrainState) (h : LossHistory) (o : Obs)
    (ho : ext.obs 0 = some o) :
    ∃ ev t, Model.train_scipy tk ms ext u s h =
        (ev, some (t, h.add 1 t.loss_train t.loss_test t.metrics_test)) ∧
      ev.count Event.drawTrainBatch = 1 ∧
      ev.count Event.evaluate = 1 ∧
      ev.count (Event.record 1) = 1 ∧
      Event.sessionClose ∉ ev := by
  have hy2 : (((s.update_data_train (ext.trainBatch 0)).update_data_test ext.testData)).y_test
      = some ext.testData.2 := by
    simp [TrainState.update_data_train, TrainState.update_data_test]
  obtain ⟨t, ht2, _, _, _, _, _, _, _, _⟩ :=
    test_spec tk ms ext.sq u o _ ext.testData.2 hy2
  have hnc := test_no_close tk ms ext.sq u o
    ((s.update_data_train (ext.trainBatch 0)).update_data_test ext.testData)
  obtain ⟨hcnt1, hcnt2, hcnt3⟩ := test_counts tk ms ext.sq u o
    ((s.update_data_train (ext.trainBatch 0)).update_data_test ext.testData)
  refine ⟨[Event.drawTrainBatch, Event.scipyMinimize, Event.drawTestData] ++
      (Model.test tk ms ext.sq u o
        ((s.update_data_train (ext.trainBatch 0)).update_data_test ext.testData)).1 ++
      [Event.record 1], t, ?_, ?_, ?_, ?_, ?_⟩
  · simp only [Model.train_scipy, ho]
    rw [ht2]
    simp
  · rw [List.count_append, List.count_append, hcnt1]
    decide
  · rw [List.count_append, List.count_append, hcnt2]
    decide
  · rw [List.count_append, List.count_append, hcnt3]
    decide
  · intro hmem
    rcases List.mem_append.mp hmem with hmem | hmem
    · rcases List.mem_append.mp hmem with hmem | hmem
      · simp at hmem
      · exact hnc hmem
    · simp at hmem

theorem train_scipy_no_close (tk : TargetsKind) (ms : List Metric) (ext : Oracle)
    (u : Bool) (s : TrainState) (h : LossHistory) :
    Event.sessionClose ∉ (Model.train_scipy tk ms ext u s h).1 := by
  simp only [Model.train_scipy]
  rcases ho : ext.obs 0 with _ | o
  · simp
  · dsimp only
    intro hmem
    rcases List.mem_append.mp hmem with hmem | hmem
    · rcases List.mem_append.mp hmem with hmem | hmem
      · simp at hmem
      · exact test_no_close tk ms ext.sq u o _ hmem
    · split at hmem <;> simp at hmem

theorem count_multiples (V : ℕ) (hV : 1 ≤ V) :
    ∀ n : ℕ, ((List.range n).filter fun j => decide (j % V = 0)).length =
      if n = 0 then 0 else (n - 1) / V + 1 := by
  intro n
  induction n with
  | zero => simp
  | succ n ih =>
      rw [List.range_succ, List.filter_append, List.length_append, ih]
      by_cases hn : n = 0
      · subst hn
        simp
      · rw [if_neg hn, if_neg (Nat.succ_ne_zero n)]
        have hsd : n / V = (n - 1) / V + if V ∣ n then 1 else 0 := by
          have hp : n - 1 + 1 = n := Nat.succ_pred_eq_of_pos (Nat.pos_of_ne_zero hn)
          conv_lhs => rw [← hp]
          rw [Nat.succ_div, hp]
        simp only [Nat.add_sub_cancel]
        by_cases hd : V ∣ n
        · have hmod : n % V = 0 := Nat.dvd_iff_mod_eq_zero.mp hd
          rw [hsd, if_pos hd]
          simp [List.filter, hmod]
        · have hmod : ¬ n % V = 0 := fun hmm => hd (Nat.dvd_iff_mod_eq_zero.mpr hmm)
          rw [hsd, if_neg hd]
          simp [List.filter, hmod]

theorem recordedSteps_length (E V : ℕ) (hE : 1 ≤ E) (hV : 1 ≤ V) :
    (recordedSteps E V).length =
      (E + V - 1) / V + if (E - 1) % V = 0 then 0 else 1 := by
  unfold recordedSteps
  rw [List.length_map]
  obtain ⟨e, rfl⟩ : ∃ e, E = e + 1 := ⟨E - 1, (Nat.succ_pred_eq_of_pos hE).symm⟩
  rw [List.range_succ, List.filter_append, List.length_append]
  have hlast : ((List.filter (fun j => decide (j % V = 0 ∨ j + 1 = e + 1)) [e])).length = 1 := by
    simp [List.filter]
  have hfront : (List.range e).filter (fun j => decide (j % V = 0 ∨ j + 1 = e + 1)) =
      (List.range e).filter (fun j => decide (j % V = 0)) := by
    apply List.filter_congr
    intro j hj
    have hlt : j < e := List.mem_range.mp hj
    have hne : ¬ j + 1 = e + 1 := by omega
    simp [hne]
  rw [hfront, hlast, count_multiples V hV e]
  have hadd : (e + 1 + V - 1) / V = e / V + 1 := by
    have : e + 1 + V - 1 = e + V := by omega
    rw [this, Nat.add_div_right _ hV]
  rw [hadd]
  simp only [Nat.add_sub_cancel]
  by_cases he : e = 0
  · subst he
    simp [Nat.zero_mod]
  · rw [if_neg he]
    have hsd : e / V = (e - 1) / V + if V ∣ e then 1 else 0 := by
      have hp : e - 1 + 1 = e := Nat.succ_pred_eq_of_pos (Nat.pos_of_ne_zero he)
      conv_lhs => rw [← hp]
      rw [Nat.succ_div, hp]
    by_cases hd : V ∣ e
    · have hmod : e % V = 0 := Nat.dvd_iff_mod_eq_zero.mp hd
      rw [hsd, if_pos hd, if_pos hmod]
    · have hmod : ¬ e % V = 0 := fun hmm => hd (Nat.dvd_iff_mod_eq_zero.mpr hmm)
      rw [hsd, if_neg hd, if_neg hmod]

theorem recordedSteps_nodup (E V : ℕ) : (recordedSteps E V).Nodup := by
  unfold recordedSteps
  exact ((List.nodup_range E).filter _).map (fun a b hab => Int.ofNat_inj.mp hab)

theorem recordedSteps_mem_last (E V : ℕ) (hE : 1 ≤ E) :
    ((E : ℤ) - 1) ∈ recordedSteps E V := by
  unfold recordedSteps
  have h1 : E - 1 ∈ List.range E := List.mem_range.mpr (by omega)
  have h2 : E - 1 ∈ (List.range E).filter fun j => decide (j % V = 0 ∨ j + 1 = E) := by
    rw [List.mem_filter]
    refine ⟨h1, ?_⟩
    simp only [decide_eq_true_eq]
    right
    omega
  have h3 := List.mem_map_of_mem Int.ofNat h2
  have h4 : (Int.ofNat (E - 1)) = (E : ℤ) - 1 := by
    have h5 := Nat.cast_sub (R := ℤ) hE
    simpa using h5
  rwa [h4] at h3

/-- C1: one `train_sgd` run with `E ≥ 1` epochs and validation cadence
`V ≥ 1` (and no exception from the numeric layer) appends exactly the
steps `recordedSteps E V` to the history, whose count is
`ceil(E / V) = (E + V - 1) / V` plus one extra record when the final
epoch index `E - 1` is not a multiple of `V`; the recorded steps are
pairwise distinct, so the final epoch is never recorded twice, and the
final epoch index `E - 1` is always recorded. -/
theorem sgd_record_count (tk : TargetsKind) (ms : List Metric) (ext : Oracle)
    (E V : ℕ) (u : Bool) (errstop : Option ℚ) (s : TrainState) (h : LossHistory)
    (hE : 1 ≤ E) (hV : 1 ≤ V) (hobs : ∀ i, (ext.obs i).isSome) :
    ∃ ev s' h', Model.train_sgd tk ms ext E V u errstop s h = (ev, some (s', h')) ∧
      h'.steps = h.steps ++ recordedSteps E V ∧
      (recordedSteps E V).length =
        (E + V - 1) / V + (if (E - 1) % V = 0 then 0 else 1) ∧
      (recordedSteps E V).Nodup ∧
      ((E : ℤ) - 1) ∈ recordedSteps E V := by
  obtain ⟨ev, s', h', heq, hsteps, _, _, _, _⟩ :=
    train_sgd_spec tk ms ext E V u errstop s h hobs
  exact ⟨ev, s', h', heq, hsteps, recordedSteps_length E V hE hV,
    recordedSteps_nodup E V, recordedSteps_mem_last E V hE⟩

/-- Closed instance of C1 at the spec's scenario `epochs = 100`,
`validation_every = 10`: exactly 11 records at steps 0,10,…,90,99. -/
theorem sgd_record_count_witness :
    recordedSteps 100 10 = [0, 10, 20, 30, 40, 50, 60, 70, 80, 90, 99] ∧
    (recordedSteps 100 10).length = 11 ∧
    ∃ ev s' h', Model.train_sgd .single [] extC 100 10 false none
        TrainState.init LossHistory.init = (ev, some (s', h')) ∧
      h'.steps = LossHistory.init.steps ++ recordedSteps 100 10 ∧
      (recordedSteps 100 10).length =
        (100 + 10 - 1) / 10 + (if (100 - 1) % 10 = 0 then 0 else 1) ∧
      (recordedSteps 100 10).Nodup ∧
      ((100 : ℤ) - 1) ∈ recordedSteps 100 10 :=
  ⟨by decide, by decide,
    sgd_record_count .single [] extC 100 10 false none TrainState.init
      LossHistory.init (by decide) (by decide) (fun i => rfl)⟩

/-- C4 amended: the session opened at the start of `train` is closed on
the normal exit path — the trace of a successful run ends with the close —
but there is no `try/finally`: when the training body raises, the
exception propagates out of `train` without the session ever being
closed. -/
theorem session_closed_on_normal_exit (ext : Oracle) (E V : ℕ) (u : Bool)
    (errstop : Option ℚ) (m : Model) :
    ((Model.train ext E V u errstop m).2.isSome = true →
      (Model.train ext E V u errstop m).1.getLast? = some Event.sessionClose) ∧
    ((Model.train ext E V u errstop m).2 = none →
      Event.sessionClose ∉ (Model.train ext E V u errstop m).1) := by
  have hnc0 : Event.sessionClose ∉
      (if Model.isScipy m.optimizer then
          Model.train_scipy m.net_targets m.metrics ext u
            m.train_state.update_tfsession m.losshistory
        else
          Model.train_sgd m.net_targets m.metrics ext E V u errstop
            m.train_state.update_tfsession m.losshistory).1 := by
    by_cases hs : Model.isScipy m.optimizer = true
    · rw [if_pos hs]
      exact train_scipy_no_close _ _ _ _ _ _
    · rw [if_neg hs]
      exact train_sgd_no_close _ _ _ _ _ _ _ _ _
  simp only [Model.train]
  rcases hd : (if Model.isScipy m.optimizer then
      Model.train_scipy m.net_targets m.metrics ext u
        m.train_state.update_tfsession m.losshistory
    else
      Model.train_sgd m.net_targets m.metrics ext E V u errstop
        m.train_state.update_tfsession m.losshistory) with ⟨ev, r⟩
  rw [hd] at hnc0
  cases r with
  | none =>
      refine ⟨?_, ?_⟩
      · intro hcontra
        simp at hcontra
      · intro _ hmem
        dsimp only at hmem
        rcases List.mem_append.mp hmem with hmem | hmem
        · simp at hmem
        · exact hnc0 hmem
  | some p =>
      refine ⟨?_, ?_⟩
      · intro _
        exact List.getLast?_concat _
      · intro hcontra
        simp at hcontra

/-- C4 counterexample: a run whose first evaluation raises (the oracle
returns no observation at epoch 0) leaves `train` with the session opened
but never closed — the trace contains `sessionOpen` and no
`sessionClose`, and no result is returned. -/
theorem session_leak_counterexample :
    (Model.train extFail 1 1 false none mC).2 = none ∧
    Event.sessionOpen ∈ (Model.train extFail 1 1 false none mC).1 ∧
    Event.sessionClose ∉ (Model.train extFail 1 1 false none mC).1 :=
  ⟨rfl, by decide, by decide⟩

/-- Closed instance of the amended C4 on both exit paths: the failing run
of the counterexample oracle and a succeeding run of the total oracle. -/
theorem session_closed_on_normal_exit_witness :
    (((Model.train extC 2 1 false none mC).2.isSome = true →
      (Model.train extC 2 1 false none mC).1.getLast? = some Event.sessionClose) ∧
     ((Model.train extC 2 1 false none mC).2 = none →
      Event.sessionClose ∉ (Model.train extC 2 1 false none mC).1)) :=
  session_closed_on_normal_exit extC 2 1 false none mC

theorem train_carries_counters (ext : Oracle) (E V : ℕ) (u : Bool)
    (errstop : Option ℚ) (m : Model)
    (hsgd : Model.isScipy m.optimizer = false)
    (hobs : ∀ i, (ext.obs i).isSome) :
    ∃ ev m' h' s', Model.train ext E V u errstop m = (ev, some (m', h', s')) ∧
      m'.train_state = s' ∧ m'.optimizer = m.optimizer ∧
      s'.epoch = m.train_state.epoch + E ∧
      s'.step = m.train_state.step + E := by
  obtain ⟨ev, s', h', heq, _, hep, hst, _, _⟩ :=
    train_sgd_spec m.net_targets m.metrics ext E V u errstop
      m.train_state.update_tfsession m.losshistory hobs
  refine ⟨[Event.sessionOpen, Event.globalInit] ++ ev ++ [Event.sessionClose],
    { m with train_state := s', losshistory := h' }, h', s', ?_, rfl, rfl, ?_, ?_⟩
  · simp only [Model.train, hsgd, Bool.false_eq_true, if_false, heq]
  · simpa [TrainState.update_tfsession] using hep
  · simpa [TrainState.update_tfsession] using hst

/-- C5 amended: the `TrainState` is constructed once per `Model` — in
`Model.__init__`, with zero counters and infinite best losses — and
`Model.train` reuses it rather than constructing a fresh one: a
successful gradient-based `train` run of `E` epochs leaves
`epoch = old epoch + E` and `step = old step + E`, so a second `train`
call on the same model carries the counters over. -/
theorem trainstate_constructed_per_model (tk : TargetsKind) (ext : Oracle)
    (E V : ℕ) (u : Bool) (errstop : Option ℚ) (m : Model)
    (hsgd : Model.isScipy m.optimizer = false)
    (hobs : ∀ i, (ext.obs i).isSome) :
    (Model.init tk).train_state = TrainState.init ∧
    TrainState.init.epoch = 0 ∧ TrainState.init.step = 0 ∧
    TrainState.init.best_loss_train = ⊤ ∧ TrainState.init.best_loss_test = ⊤ ∧
    ∃ ev m' h' s', Model.train ext E V u errstop m = (ev, some (m', h', s')) ∧
      m'.train_state = s' ∧ m'.optimizer = m.optimizer ∧
      s'.epoch = m.train_state.epoch + E ∧
      s'.step = m.train_state.step + E :=
  ⟨rfl, rfl, rfl, rfl, rfl, train_carries_counters ext E V u errstop m hsgd hobs⟩

/-- C5 counterexample: after one 1-epoch `train` call the model's
`TrainState` has `epoch = 1`, not 0; a second 1-epoch `train` call on the
same model ends at `epoch = 2`, whereas the spec's fresh-per-invocation
variant of the same call ends at `epoch = 1` — so `train` does not begin
with a freshly constructed `TrainState`, and a second call carries the
counters over. -/
theorem train_reuses_state_counterexample :
    ∃ ev1 m1 h1 s1, Model.train extC 1 1 false none mC = (ev1, some (m1, h1, s1)) ∧
      m1.train_state.epoch = 1 ∧
      (∃ ev2 m2 h2 s2, Model.train extC 1 1 false none m1 = (ev2, some (m2, h2, s2)) ∧
        s2.epoch = 2) ∧
      (∃ ev3 m3 h3 s3,
        Model.trainFreshState extC 1 1 false none m1 = (ev3, some (m3, h3, s3)) ∧
        s3.epoch = 1) := by
  obtain ⟨ev1, m1, h1, s1, heq1, hms1, hopt1, hep1, -⟩ :=
    train_carries_counters extC 1 1 false none mC (by decide) (fun i => rfl)
  have hsgd1 : Model.isScipy m1.optimizer = false := by
    rw [hopt1]
    decide
  obtain ⟨ev2, m2, h2, s2, heq2, -, -, hep2, -⟩ :=
    train_carries_counters extC 1 1 false none m1 hsgd1 (fun i => rfl)
  have hsgd3 : Model.isScipy
      ({ m1 with train_state := TrainState.init } : Model).optimizer = false := hsgd1
  obtain ⟨ev3, m3, h3, s3, heq3, -, -, hep3, -⟩ :=
    train_carries_counters extC 1 1 false none
      { m1 with train_state := TrainState.init } hsgd3 (fun i => rfl)
  have he1 : m1.train_state.epoch = 1 := by
    rw [hms1, hep1]
    rfl
  refine ⟨ev1, m1, h1, s1, heq1, he1, ⟨ev2, m2, h2, s2, heq2, ?_⟩,
    ⟨ev3, m3, h3, s3, heq3, ?_⟩⟩
  · rw [hep2, he1]
  · rw [hep3]
    rfl

/-- Closed instance of the amended C5: two epochs on the fresh model end
at epoch 2 = 0 + 2. -/
theorem trainstate_constructed_per_model_witness :
    (Model.init TargetsKind.single).train_state = TrainState.init ∧
    TrainState.init.epoch = 0 ∧ TrainState.init.step = 0 ∧
    TrainState.init.best_loss_train = ⊤ ∧ TrainState.init.best_loss_test = ⊤ ∧
    ∃ ev m' h' s', Model.train extC 2 1 false none mC = (ev, some (m', h', s')) ∧
      m'.train_state = s' ∧ m'.optimizer = mC.optimizer ∧
      s'.epoch = mC.train_state.epoch + 2 ∧
      s'.step = mC.train_state.step + 2 :=
  trainstate_constructed_per_model TargetsKind.single extC 2 1 false none mC
    (by decide) (fun i => rfl)

/-- C6: with any quasi-Newton optimizer name, one `train` run draws
exactly one training minibatch, runs evaluation exactly once, and appends
exactly one `LossHistory` record, whose step value is 1 — independently
of the `epochs` and `validation_every` arguments. -/
theorem scipy_single_record (name : String) (ext : Oracle) (m : Model)
    (E E' V V' : ℕ) (u : Bool) (e : Option ℚ)
    (hname : name ∈ Model.scipy_opts) (hopt : m.optimizer = some name)
    (o : Obs) (ho : ext.obs 0 = some o) :
    (∃ ev m' h' s', Model.train ext E V u e m = (ev, some (m', h', s')) ∧
      h'.steps = m.losshistory.steps ++ [(1 : ℤ)] ∧
      ev.count Event.drawTrainBatch = 1 ∧
      ev.count Event.evaluate = 1 ∧
      ev.count (Event.record 1) = 1) ∧
    Model.train ext E V u e m = Model.train ext E' V' u e m := by
  have hscipy : Model.isScipy m.optimizer = true := by
    rw [hopt]
    simpa [Model.isScipy] using hname
  constructor
  · obtain ⟨ev, t, heq, hc1, hc2, hc3, _⟩ :=
      train_scipy_spec m.net_targets m.metrics ext u
        m.train_state.update_tfsession m.losshistory o ho
    refine ⟨[Event.sessionOpen, Event.globalInit] ++ ev ++ [Event.sessionClose],
      { m with train_state := t,
               losshistory := m.losshistory.add 1 t.loss_train t.loss_test t.metrics_test },
      m.losshistory.add 1 t.loss_train t.loss_test t.metrics_test, t, ?_, ?_, ?_, ?_, ?_⟩
    · simp only [Model.train, hscipy, if_true, heq]
    · rfl
    · simp only [List.count_append, hc1]
      decide
    · simp only [List.count_append, hc2]
      decide
    · simp only [List.count_append, hc3]
      decide
  · simp [Model.train, hscipy]

/-- Closed instance of C6 at "L-BFGS-B", with two different epoch
arguments. -/
theorem scipy_single_record_witness :
    (∃ ev m' h' s', Model.train extC 5 1000 false none mS = (ev, some (m', h', s')) ∧
      h'.steps = mS.losshistory.steps ++ [(1 : ℤ)] ∧
      ev.count Event.drawTrainBatch = 1 ∧
      ev.count Event.evaluate = 1 ∧
      ev.count (Event.record 1) = 1) ∧
    Model.train extC 5 1000 false none mS = Model.train extC 77 13 false none mS :=
  scipy_single_record ("L-BFGS-B") extC mS 5 77 1000 13 false none
    (by decide) rfl obsC rfl
